import Mathlib

/-!
Verification development for the sensorineural-hearing-loss audio simulator
(`SNHL_sim.py`). The Python source is shallowly embedded: buffers become
`List ℝ`, the FFT-based attenuation and the logarithmic compression become
Lean functions over the reals, and the Tk session object becomes an explicit
`AppState` record whose operations (`handle_file_drop`, `process_audios`,
`save_audios`) are state-passing functions parameterised by the external
collaborators (audio loader, filesystem writer).

Machine-float behaviour is modelled in exact real arithmetic; the one place
where float semantics is observable — numpy producing a non-finite value on a
division by zero — is modelled by an `Option ℝ` sample (`none` = non-finite).
Calls that raise in numpy (`np.fft.irfft` on fewer than two bins) are
modelled with `Option`.
-/

namespace SNHLSim

/-! ### SpectralAttenuator (`apply_frequency_dependent_attenuation`) -/

/-- `np.fft.rfftfreq n d`: the `n / 2 + 1` non-negative sample frequencies
`k / (d * n)` for `k = 0, …, n / 2`. -/
noncomputable def rfftfreq (n : ℕ) (d : ℝ) : List ℝ :=
  (List.range (n / 2 + 1)).map fun (k : ℕ) => (k : ℝ) / (d * (n : ℝ))

/-- The gain applied at frequency `f` by the three in-place masked multiplies
`attenuation[freqs > 1000] *= 0.6`, `attenuation[freqs > 3000] *= 0.3`,
`attenuation[freqs > 6000] *= 0.1`, starting from `np.ones_like(freqs)`.
The masked assignments act elementwise, so per element they are exactly the
three sequential conditional multiplications below. -/
noncomputable def attenuationGain (f : ℝ) : ℝ :=
  let g0 : ℝ := 1
  let g1 : ℝ := if 1000 < f then g0 * 0.6 else g0
  let g2 : ℝ := if 3000 < f then g1 * 0.3 else g1
  if 6000 < f then g2 * 0.1 else g2

/-- Modelled from the spec: the net gain table of §4.2 / C3 — `1.0` up to
1000 Hz, `0.6` up to 3000 Hz, `0.18 = 0.6 × 0.3` up to 6000 Hz and
`0.018 = 0.6 × 0.3 × 0.1` above. Used only to compare against
`attenuationGain`, which is translated from the source. -/
noncomputable def specGain (f : ℝ) : ℝ :=
  if f ≤ 1000 then 1 else if f ≤ 3000 then 0.6 else if f ≤ 6000 then 0.18 else 0.018

/-- `np.fft.rfft`: the `len signal / 2 + 1` non-negative-frequency bins of the
discrete Fourier transform of a real signal. -/
noncomputable def rfft (signal : List ℝ) : List ℂ :=
  (List.range (signal.length / 2 + 1)).map fun k =>
    ∑ j ∈ Finset.range signal.length,
      (signal.getD j 0 : ℂ) *
        Complex.exp (-2 * (Real.pi : ℂ) * Complex.I * (k : ℕ) * (j : ℕ) / (signal.length : ℕ))

/-- `np.fft.irfft` with the default output length `n = 2 * (len a - 1)`:
rebuilds a Hermitian-symmetric full spectrum from the half spectrum `a` and
inverts it. When `a` has at most one bin, `n = 0` and numpy raises
("Invalid number of FFT data points"); this fault is modelled as `none`. -/
noncomputable def irfft (a : List ℂ) : Option (List ℝ) :=
  let n : ℕ := 2 * (a.length - 1)
  if a.length ≤ 1 then none
  else
    some ((List.range n).map fun j =>
      ((1 : ℝ) / (n : ℝ)) *
        (∑ k ∈ Finset.range n,
          ((if k < a.length then a.getD k 0 else (starRingEnd ℂ) (a.getD (n - k) 0)) *
            Complex.exp (2 * (Real.pi : ℂ) * Complex.I * (j : ℕ) * (k : ℕ) / (n : ℕ)))).re)

/-- Lines 111-119 of `SNHL_sim.py`: forward rFFT, elementwise multiply by the
cumulative attenuation mask, inverse rFFT (with numpy's default output
length, i.e. without `n = len signal`). -/
noncomputable def apply_frequency_dependent_attenuation
    (signal : List ℝ) (sampling_rate : ℝ) : Option (List ℝ) :=
  let fft_signal := rfft signal
  let freqs := rfftfreq signal.length (1 / sampling_rate)
  let attenuation := freqs.map attenuationGain
  irfft (List.zipWith (fun (z : ℂ) (g : ℝ) => z * (g : ℂ)) fft_signal attenuation)

theorem rfft_length (signal : List ℝ) : (rfft signal).length = signal.length / 2 + 1 := by
  rw [rfft, List.length_map, List.length_range]

theorem rfftfreq_length (n : ℕ) (d : ℝ) : (rfftfreq n d).length = n / 2 + 1 := by
  rw [rfftfreq, List.length_map, List.length_range]

/-- Length behaviour of attenuation: the result is `none` (a numpy fault) when
the buffer has fewer than two samples, and otherwise has length
`2 * (N / 2)`, i.e. `N` for even `N` and `N - 1` for odd `N`. -/
theorem attenuation_length (signal : List ℝ) (sr : ℝ) :
    (apply_frequency_dependent_attenuation signal sr).map List.length
      = if signal.length / 2 = 0 then none else some (2 * (signal.length / 2)) := by
  have hz : (List.zipWith (fun (z : ℂ) (g : ℝ) => z * (g : ℂ)) (rfft signal)
      ((rfftfreq signal.length (1 / sr)).map attenuationGain)).length
      = signal.length / 2 + 1 := by
    rw [List.length_zipWith, List.length_map, rfft_length, rfftfreq_length, min_self]
  simp only [apply_frequency_dependent_attenuation, irfft, hz]
  by_cases h : signal.length / 2 = 0
  · have h1 : signal.length / 2 + 1 ≤ 1 := by omega
    simp [h, h1]
  · have h1 : ¬ (signal.length / 2 + 1 ≤ 1) := by omega
    simp [h, h1]

/-! ### DynamicRangeCompressor (`apply_dynamic_range_compression`) -/

/-- Line 123 of `SNHL_sim.py`:
`compressed_signal = np.sign(signal) * np.log1p(np.abs(signal)) * 1.2`. -/
noncomputable def compressedSignal (signal : List ℝ) : List ℝ :=
  signal.map fun x => Real.sign x * Real.log (1 + |x|) * 1.2

/-- `np.max (np.abs l)` for the nonempty buffers this program feeds it
(`np.max` raises on an empty array; every claim below concerns nonempty
buffers, on which this fold is exactly the maximum absolute value). -/
noncomputable def listAMax (l : List ℝ) : ℝ :=
  (l.map fun v => |v|).foldr max 0

/-- Lines 122-124 of `SNHL_sim.py`: the returned samples are
`compressed_signal / np.max(np.abs(compressed_signal))`. There is no guard on
the divisor: when the peak is `0` every numerator is also `0` and numpy's
float division produces the non-finite value NaN, modelled here as `none`;
a `some` sample is the exact real quotient of a well-defined division. -/
noncomputable def apply_dynamic_range_compression (signal : List ℝ) : List (Option ℝ) :=
  (compressedSignal signal).map fun y =>
    if listAMax (compressedSignal signal) = 0 then none
    else some (y / listAMax (compressedSignal signal))

/-- The same compression curve with the constant `1.2` of line 123 replaced by
an arbitrary constant `c`; claim C10 compares this against the source's
`apply_dynamic_range_compression`. -/
noncomputable def compressWithGain (c : ℝ) (signal : List ℝ) : List (Option ℝ) :=
  (signal.map fun x => Real.sign x * Real.log (1 + |x|) * c).map fun y =>
    if listAMax (signal.map fun x => Real.sign x * Real.log (1 + |x|) * c) = 0 then none
    else some (y / listAMax (signal.map fun x => Real.sign x * Real.log (1 + |x|) * c))

theorem foldr_max_nonneg (l : List ℝ) : 0 ≤ l.foldr max 0 := by
  induction l with
  | nil => simp
  | cons a t ih => exact le_trans ih (le_max_right a _)

theorem le_foldr_max {a : ℝ} {l : List ℝ} (h : a ∈ l) : a ≤ l.foldr max 0 := by
  induction l with
  | nil => cases h
  | cons b t ih =>
    rcases List.mem_cons.mp h with rfl | ht
    · exact le_max_left _ _
    · exact le_trans (ih ht) (le_max_right _ _)

theorem listAMax_nonneg (l : List ℝ) : 0 ≤ listAMax l := foldr_max_nonneg _

theorem abs_le_listAMax {y : ℝ} {l : List ℝ} (h : y ∈ l) : |y| ≤ listAMax l :=
  le_foldr_max (List.mem_map_of_mem _ h)

theorem listAMax_map_div {m : ℝ} (hm : 0 < m) (l : List ℝ) :
    listAMax (l.map fun v => v / m) = listAMax l / m := by
  unfold listAMax
  induction l with
  | nil => simp
  | cons a t ih =>
    simp only [List.map_cons, List.foldr_cons]
    rw [ih, abs_div, abs_of_pos hm, max_div_div_right hm.le]

theorem listAMax_map_mul {k : ℝ} (hk : 0 ≤ k) (l : List ℝ) :
    listAMax (l.map fun v => v * k) = listAMax l * k := by
  unfold listAMax
  induction l with
  | nil => simp
  | cons a t ih =>
    simp only [List.map_cons, List.foldr_cons]
    rw [ih, abs_mul, abs_of_nonneg hk, max_mul_of_nonneg _ _ hk]

theorem sign_div_pos {m : ℝ} (hm : 0 < m) (y : ℝ) : Real.sign (y / m) = Real.sign y := by
  rcases lt_trichotomy y 0 with hy | hy | hy
  · rw [Real.sign_of_neg hy, Real.sign_of_neg (div_neg_of_neg_of_pos hy hm)]
  · subst hy; rw [zero_div]
  · rw [Real.sign_of_pos hy, Real.sign_of_pos (div_pos hy hm)]

theorem curve_pos {x c : ℝ} (hx : 0 < x) (hc : 0 < c) :
    0 < Real.sign x * Real.log (1 + |x|) * c := by
  rw [Real.sign_of_pos hx, one_mul]
  exact mul_pos (Real.log_pos (by rw [abs_of_pos hx]; linarith)) hc

theorem curve_neg {x c : ℝ} (hx : x < 0) (hc : 0 < c) :
    Real.sign x * Real.log (1 + |x|) * c < 0 := by
  rw [Real.sign_of_neg hx]
  have hl : 0 < Real.log (1 + |x|) := Real.log_pos (by rw [abs_of_neg hx]; linarith)
  nlinarith

theorem sign_curve {x c : ℝ} (hx : x ≠ 0) (hc : 0 < c) :
    Real.sign (Real.sign x * Real.log (1 + |x|) * c) = Real.sign x := by
  rcases hx.lt_or_lt with h | h
  · rw [Real.sign_of_neg (curve_neg h hc), Real.sign_of_neg h]
  · rw [Real.sign_of_pos (curve_pos h hc), Real.sign_of_pos h]

theorem curve_abs_pos {x c : ℝ} (hx : x ≠ 0) (hc : 0 < c) :
    0 < |Real.sign x * Real.log (1 + |x|) * c| := by
  rcases hx.lt_or_lt with h | h
  · exact abs_pos.mpr (ne_of_lt (curve_neg h hc))
  · exact abs_pos.mpr (ne_of_gt (curve_pos h hc))

theorem listAMax_compressed_pos {signal : List ℝ} (h : ∃ x ∈ signal, x ≠ 0) :
    0 < listAMax (compressedSignal signal) := by
  obtain ⟨x, hx, hx0⟩ := h
  have hmem : Real.sign x * Real.log (1 + |x|) * 1.2 ∈ compressedSignal signal :=
    List.mem_map_of_mem _ hx
  calc (0:ℝ) < |Real.sign x * Real.log (1 + |x|) * 1.2| := curve_abs_pos hx0 (by norm_num)
    _ ≤ listAMax (compressedSignal signal) := abs_le_listAMax hmem

theorem getD_map_zero (f : ℝ → ℝ) (hf : f 0 = 0) (l : List ℝ) (i : ℕ) :
    (l.map f).getD i 0 = f (l.getD i 0) := by
  rw [List.getD_eq_getD_get? _ 0 i, List.getD_eq_getD_get? _ 0 i,
    List.get?_eq_getElem?, List.get?_eq_getElem?, List.getElem?_map]
  cases l[i]? with
  | none => simp [hf]
  | some v => simp

/-! ### Claims C1-C4, C10: the DSP core -/

/-- C2 (amended): for every input buffer and sampling rate, the attenuated
buffer has length `2 * (N / 2)` — `N` for even `N`, `N - 1` for odd `N` — and
the call faults (numpy `irfft` error) when `N ≤ 1`, because `np.fft.irfft` is
invoked without the length argument `n = len(signal)`. -/
theorem C2_attenuation_length_even_odd (signal : List ℝ) (sr : ℝ) :
    (apply_frequency_dependent_attenuation signal sr).map List.length
      = if signal.length / 2 = 0 then none else some (2 * (signal.length / 2)) :=
  attenuation_length signal sr

/-- C2 counterexample: a three-sample buffer comes back with only two samples,
so `attenuate` does not preserve the length of every buffer of length `N ≥ 1`
at a positive sampling rate (here 44100 Hz). -/
theorem C2_counterexample :
    (apply_frequency_dependent_attenuation [1, 2, 3] 44100).map List.length ≠ some 3 := by
  have h := attenuation_length [1, 2, 3] 44100
  simp only [List.length_cons, List.length_nil] at h
  rw [h]
  norm_num

/-- C3: the gain mask applied by `attenuate` is the cumulative product of the
applicable multipliers — `1` for `f ≤ 1000`, `0.6` for `1000 < f ≤ 3000`,
`0.6 * 0.3 = 0.18` for `3000 < f ≤ 6000`, `0.6 * 0.3 * 0.1 = 0.018` above
6000 Hz — and the spectrum handed to the inverse transform is the elementwise
product of the forward spectrum with that mask. -/
theorem C3_gain_mask :
    (∀ f : ℝ, attenuationGain f = specGain f) ∧
    (∀ (signal : List ℝ) (sr : ℝ),
      apply_frequency_dependent_attenuation signal sr
        = irfft (List.zipWith (fun (z : ℂ) (g : ℝ) => z * (g : ℂ)) (rfft signal)
            ((rfftfreq signal.length (1 / sr)).map attenuationGain))) := by
  constructor
  · intro f
    simp only [attenuationGain, specGain]
    split_ifs <;> linarith
  · intro signal sr
    rfl

/-- C1 evaluated at the failing input: on the silent one-sample buffer `[0]`
the compression's peak is `0`, the division is `0 / 0`, and the output sample
is non-finite (`none`) instead of the required unchanged zero — the guard the
spec demands is absent from the code. -/
theorem C1_silent_input_not_preserved :
    apply_dynamic_range_compression [0] = [none] ∧ [Option.some (0 : ℝ)] ≠ [none] := by
  constructor
  · have h : compressedSignal [0] = [0] := by
      simp [compressedSignal, Real.sign_zero]
    rw [apply_dynamic_range_compression, h]
    simp [listAMax]
  · simp

/-- C4: for every buffer with at least one non-zero sample, the compressed
output consists of finite samples whose maximum absolute value is exactly `1`,
and wherever the input sample is non-zero the output sample has the same
sign. -/
theorem C4_compress_normalizes_and_preserves_sign (signal : List ℝ)
    (h : ∃ x ∈ signal, x ≠ 0) :
    ∃ out : List ℝ,
      apply_dynamic_range_compression signal = out.map some ∧
      out.length = signal.length ∧
      listAMax out = 1 ∧
      ∀ i : ℕ, signal.getD i 0 ≠ 0 →
        Real.sign (out.getD i 0) = Real.sign (signal.getD i 0) := by
  have hm : 0 < listAMax (compressedSignal signal) := listAMax_compressed_pos h
  refine ⟨(compressedSignal signal).map fun y => y / listAMax (compressedSignal signal),
    ?_, ?_, ?_, ?_⟩
  · rw [apply_dynamic_range_compression, List.map_map]
    simp only [if_neg hm.ne']
    rfl
  · rw [List.length_map, compressedSignal, List.length_map]
  · rw [listAMax_map_div hm, div_self hm.ne']
  · intro i hi
    rw [getD_map_zero (fun y => y / listAMax (compressedSignal signal)) (zero_div _) _ i,
      sign_div_pos hm, compressedSignal,
      getD_map_zero (fun x => Real.sign x * Real.log (1 + |x|) * 1.2)
        (by simp [Real.sign_zero]) _ i,
      sign_curve hi (by norm_num)]

/-- Witness for C4 at the concrete buffer `[1]`. -/
theorem C4_witness :
    (∃ x ∈ [(1:ℝ)], x ≠ 0) ∧
    (∃ out : List ℝ,
      apply_dynamic_range_compression [(1:ℝ)] = out.map some ∧
      out.length = [(1:ℝ)].length ∧
      listAMax out = 1 ∧
      ∀ i : ℕ, [(1:ℝ)].getD i 0 ≠ 0 →
        Real.sign (out.getD i 0) = Real.sign ([(1:ℝ)].getD i 0)) :=
  ⟨⟨1, by simp, one_ne_zero⟩,
    C4_compress_normalizes_and_preserves_sign [1] ⟨1, by simp, one_ne_zero⟩⟩

/-- C10: whenever the compressed intermediate has a non-zero peak, replacing
the constant factor `1.2` by any positive constant `c` leaves the output of
the compression unchanged — the factor cancels in the peak division. -/
theorem C10_gain_factor_cancels (signal : List ℝ) (c : ℝ) (hc : 0 < c)
    (hm : listAMax (compressedSignal signal) ≠ 0) :
    compressWithGain c signal = apply_dynamic_range_compression signal := by
  have hk : (0:ℝ) < c / 1.2 := by positivity
  have hmap : (signal.map fun x => Real.sign x * Real.log (1 + |x|) * c)
      = (compressedSignal signal).map fun v => v * (c / 1.2) := by
    rw [compressedSignal, List.map_map]
    refine List.map_congr_left fun x _ => ?_
    show Real.sign x * Real.log (1 + |x|) * c
      = Real.sign x * Real.log (1 + |x|) * 1.2 * (c / 1.2)
    ring
  have hpk : listAMax ((compressedSignal signal).map fun v => v * (c / 1.2))
      = listAMax (compressedSignal signal) * (c / 1.2) := listAMax_map_mul hk.le _
  have hMk : listAMax (compressedSignal signal) * (c / 1.2) ≠ 0 :=
    mul_ne_zero hm hk.ne'
  rw [compressWithGain, hmap, apply_dynamic_range_compression, hpk, List.map_map]
  refine List.map_congr_left fun y _ => ?_
  show (if listAMax (compressedSignal signal) * (c / 1.2) = 0 then none
      else some (y * (c / 1.2) / (listAMax (compressedSignal signal) * (c / 1.2))))
    = if listAMax (compressedSignal signal) = 0 then none
      else some (y / listAMax (compressedSignal signal))
  rw [if_neg hMk, if_neg hm, mul_div_mul_right y _ hk.ne']

/-- Witness for C10 at the concrete buffer `[1]` and constant `2.4`. -/
theorem C10_witness :
    (0:ℝ) < 2.4 ∧ listAMax (compressedSignal [(1:ℝ)]) ≠ 0 ∧
    compressWithGain 2.4 [(1:ℝ)] = apply_dynamic_range_compression [(1:ℝ)] := by
  have hm : listAMax (compressedSignal [(1:ℝ)]) ≠ 0 :=
    (listAMax_compressed_pos ⟨1, by simp, one_ne_zero⟩).ne'
  exact ⟨by norm_num, hm, C10_gain_factor_cancels [1] 2.4 (by norm_num) hm⟩

/-! ### The session object (`AudioProcessingApp`) and its batch operations

The Tk widgets are dropped; the mutable fields of the app object
(lines 16-20) become an explicit record, and the external collaborators —
`os.path.isfile`, `librosa.load`, `sf.write`, the directory dialog — become
function parameters. -/

/-- Python `str.strip()` (whitespace on both ends). -/
def pyStrip (s : String) : String :=
  String.mk (((s.toList.dropWhile Char.isWhitespace).reverse.dropWhile
    Char.isWhitespace).reverse)

def pySplitAux : List Char → List Char → List String
  | [], acc => if acc.isEmpty then [] else [String.mk acc.reverse]
  | c :: cs, acc =>
    if c.isWhitespace then
      if acc.isEmpty then pySplitAux cs [] else String.mk acc.reverse :: pySplitAux cs []
    else pySplitAux cs (c :: acc)

/-- Python `str.split()` with no separator: split on runs of whitespace,
discarding empty fields. -/
def pySplit (s : String) : List String := pySplitAux s.toList []

/-- Line 71: `file_data.strip().split()`. -/
def parse_file_paths (file_data : String) : List String := pySplit (pyStrip file_data)

/-- `os.path.basename` (POSIX): everything after the last `/`. -/
def basename (p : String) : String :=
  String.mk (p.toList.foldl (fun acc c => if c = '/' then [] else acc ++ [c]) [])

/-- Index of the last occurrence of `c`, if any. -/
def lastIdxOf (c : Char) : List Char → Option ℕ
  | [] => none
  | x :: xs =>
    match lastIdxOf c xs with
    | some i => some (i + 1)
    | none => if x = c then some 0 else none

/-- `os.path.splitext` (POSIX `posixpath` semantics): split at the last dot,
provided it comes after the last separator and the leading characters of the
final component are not all dots. -/
def splitextList (cs : List Char) : List Char × List Char :=
  match lastIdxOf '.' cs with
  | none => (cs, [])
  | some d =>
    let lo : ℕ := match lastIdxOf '/' cs with | none => 0 | some sep => sep + 1
    if d < lo then (cs, [])
    else if ((List.range d).filter fun k => lo ≤ k ∧ cs.getD k '.' ≠ '.').isEmpty
    then (cs, [])
    else (cs.take d, cs.drop d)

def splitext (p : String) : String × String :=
  let r := splitextList p.toList
  (String.mk r.1, String.mk r.2)

/-- `os.path.join dir b` (POSIX, for the two-argument call on line 156). -/
def joinPath (a b : String) : String :=
  if b.toList.headD ' ' = '/' then b
  else if a.toList.isEmpty ∨ a.toList.getLastD ' ' = '/' then a ++ b
  else a ++ "/" ++ b

/-- Lines 155-156: `{basename}_SNHL_sim{ext}` joined onto the save directory. -/
def outputName (dir : String) (audio_path : String) : String :=
  let be := splitext (basename audio_path)
  joinPath dir (be.1 ++ "_SNHL_sim" ++ be.2)

/-- The mutable state of `AudioProcessingApp` (lines 16-20, 45): the three
parallel collections, the chosen save directory, and whether the save button
has been enabled. -/
structure AppState where
  audio_paths : List String
  processed_audios : List (List (Option ℝ))
  sampling_rates : List ℕ
  save_directory : Option String
  save_button_enabled : Bool

/-- `__init__`: empty collections, no directory, save button disabled. -/
def initialState : AppState := ⟨[], [], [], none, false⟩

/-- Lines 56-61: append each dropped file that is not already listed and that
the filesystem reports as a file; membership is tested against the growing
list. -/
def handle_file_drop (isFile : String → Bool) (eventData : String) (s : AppState) : AppState :=
  let newPaths := (parse_file_paths eventData).foldl
    (fun acc file => if file ∉ acc ∧ isFile file then acc ++ [file] else acc)
    s.audio_paths
  { s with audio_paths := newPaths }

/-- Lines 138-141: store the directory picked by the dialog (`none` models a
cancelled dialog, which Python leaves falsy). -/
def choose_save_directory (d : Option String) (s : AppState) : AppState :=
  { s with save_directory := d }

/-- Outcome surfaced by `process_audios` (messagebox / status label). -/
inductive ProcOutcome where
  | noFiles : ProcOutcome
  | procError (msg : String) : ProcOutcome
  | ok : ProcOutcome
deriving DecidableEq

/-- The per-file pipeline of the loop body (lines 108-127): load, attenuate,
compress. `load` models `librosa.load(path, sr=None)`; any exception is an
`error` carrying the exception text. A fault in the attenuation (numpy irfft
on fewer than two bins) is likewise an exception. -/
noncomputable def processOne (load : String → Except String (List ℝ × ℕ)) (p : String) :
    Except String (List (Option ℝ) × ℕ) :=
  match load p with
  | .error e => .error e
  | .ok (audio, sr) =>
    match apply_frequency_dependent_attenuation audio (sr : ℝ) with
    | none => .error "Invalid number of FFT data points"
    | some attenuated => .ok (apply_dynamic_range_compression attenuated, sr)

/-- The processing loop (lines 107-129): results accumulated in order up to
the first exception, which is reported. -/
noncomputable def processList (load : String → Except String (List ℝ × ℕ)) :
    List String → List (List (Option ℝ) × ℕ) × Option String
  | [] => ([], none)
  | p :: rest =>
    match processOne load p with
    | .error e => ([], some e)
    | .ok r =>
      let rs := processList load rest
      (r :: rs.1, rs.2)

/-- Lines 97-136, `process_audios`: reject an empty path list; otherwise clear
the result collections, rebuild them file by file until the first exception,
enable the save button only when every file succeeded. -/
noncomputable def process_audios (load : String → Except String (List ℝ × ℕ))
    (s : AppState) : AppState × ProcOutcome :=
  if s.audio_paths = [] then (s, .noFiles)
  else
    let res := processList load s.audio_paths
    let s' := { s with processed_audios := res.1.map Prod.fst,
                       sampling_rates := res.1.map Prod.snd }
    match res.2 with
    | some e => (s', .procError e)
    | none => ({ s' with save_button_enabled := true }, .ok)

/-- Outcome surfaced by `save_audios`. -/
inductive SaveOutcome where
  | noAudio : SaveOutcome
  | noDirectory : SaveOutcome
  | saved (files : List String) : SaveOutcome
  | saveError : SaveOutcome
deriving DecidableEq

/-- A file on disk after export: output path, buffer written, sampling rate. -/
abbrev WrittenFile := String × List (Option ℝ) × ℕ

/-- The export loop (lines 153-158): `for i, audio_path in
enumerate(self.audio_paths)`, index into the buffer and rate collections
(an out-of-range index raises, aborting the loop), then `sf.write`; `write`
returning `false` models an `sf.write` exception. Files already written stay
in the accumulator — nothing is rolled back. -/
def saveLoopAux (write : String → List (Option ℝ) → ℕ → Bool) (dir : String)
    (bufs : List (List (Option ℝ))) (rates : List ℕ) :
    List String → ℕ → List WrittenFile → List WrittenFile × Bool
  | [], _, acc => (acc, true)
  | p :: rest, i, acc =>
    if i < bufs.length ∧ i < rates.length then
      if write (outputName dir p) (bufs.getD i []) (rates.getD i 0) then
        saveLoopAux write dir bufs rates rest (i + 1)
          (acc ++ [(outputName dir p, bufs.getD i [], rates.getD i 0)])
      else (acc, false)
    else (acc, false)

/-- Lines 143-165, `save_audios`: reject when there are no processed buffers
or rates, or no directory; otherwise run the export loop. The second
component is the list of files actually written to disk. -/
def save_audios (write : String → List (Option ℝ) → ℕ → Bool) (s : AppState) :
    SaveOutcome × List WrittenFile :=
  if s.processed_audios.isEmpty ∨ s.sampling_rates.isEmpty then (.noAudio, [])
  else
    match s.save_directory with
    | none => (.noDirectory, [])
    | some dir =>
      let r := saveLoopAux write dir s.processed_audios s.sampling_rates s.audio_paths 0 []
      if r.2 then (.saved (r.1.map Prod.fst), r.1) else (.saveError, r.1)

/-! ### Batch processing lemmas and claims C5, C7 -/

/-- The successful per-file result of the loop body, as a function of the
decoded audio: compression of the attenuated buffer, paired with the native
sampling rate. Used to state concrete batch scenarios. -/
noncomputable def pipelineResult (audio : List ℝ) (sr : ℕ) : List (Option ℝ) × ℕ :=
  (apply_dynamic_range_compression
    ((apply_frequency_dependent_attenuation audio (sr : ℝ)).getD []), sr)

theorem processOne_ok_of (load : String → Except String (List ℝ × ℕ)) (p : String)
    (audio : List ℝ) (sr : ℕ) (hl : load p = .ok (audio, sr))
    (hs : (apply_frequency_dependent_attenuation audio (sr : ℝ)).isSome = true) :
    processOne load p = .ok (pipelineResult audio sr) := by
  obtain ⟨l, hl2⟩ := Option.isSome_iff_exists.mp hs
  unfold processOne pipelineResult
  rw [hl]
  dsimp only
  rw [hl2]
  rfl

theorem processList_all_ok (load : String → Except String (List ℝ × ℕ))
    (f : String → List (Option ℝ) × ℕ) :
    ∀ paths : List String, (∀ p ∈ paths, processOne load p = .ok (f p)) →
      processList load paths = (paths.map f, none)
  | [], _ => by simp [processList]
  | p :: rest, h => by
    have hp := h p (List.mem_cons_self p rest)
    have ih := processList_all_ok load f rest fun q hq => h q (List.mem_cons_of_mem p hq)
    simp [processList, hp, ih]

theorem processList_first_fail (load : String → Except String (List ℝ × ℕ))
    (f : String → List (Option ℝ) × ℕ) (pbad : String) (rest : List String) (e : String)
    (hbad : processOne load pbad = .error e) :
    ∀ pre : List String, (∀ p ∈ pre, processOne load p = .ok (f p)) →
      processList load (pre ++ pbad :: rest) = (pre.map f, some e)
  | [], _ => by simp [processList, hbad]
  | p :: pre, h => by
    have hp := h p (List.mem_cons_self p pre)
    have ih := processList_first_fail load f pbad rest e hbad pre
      fun q hq => h q (List.mem_cons_of_mem p hq)
    simp [processList, hp, ih]

theorem process_audios_paths (load : String → Except String (List ℝ × ℕ)) (s : AppState) :
    (process_audios load s).1.audio_paths = s.audio_paths := by
  unfold process_audios
  by_cases h : s.audio_paths = []
  · simp [h]
  · rcases h2 : (processList load s.audio_paths).2 with _ | e <;> simp [h, h2]

theorem process_audios_results (load : String → Except String (List ℝ × ℕ))
    (s : AppState) (h : s.audio_paths ≠ []) :
    (process_audios load s).1.processed_audios
        = (processList load s.audio_paths).1.map Prod.fst ∧
      (process_audios load s).1.sampling_rates
        = (processList load s.audio_paths).1.map Prod.snd := by
  unfold process_audios
  rcases h2 : (processList load s.audio_paths).2 with _ | e <;> simp [h, h2]

/-- C7 counterexample state: a session still carrying the results of a
previous batch at a moment when the path list is empty. -/
def stateStale : AppState := ⟨[], [[some 1]], [44100], none, true⟩

/-- C7 counterexample: invoking `process_audios` with an empty path list
returns the input-error outcome without resetting the accumulated result set
— the previous results survive the invocation, contradicting "every
invocation of process first resets the accumulated result set". -/
theorem C7_counterexample :
    (process_audios (fun _ => .error "e") stateStale).2 = .noFiles ∧
    (process_audios (fun _ => .error "e") stateStale).1.processed_audios = [[some 1]] ∧
    [[Option.some (1 : ℝ)]] ≠ ([] : List (List (Option ℝ))) :=
  ⟨rfl, rfl, by simp⟩

/-- C7 (amended): an invocation with a non-empty path list rebuilds the result
collections from scratch — on success the outcome is `ok` and there is
exactly one (buffer, rate) pair per input path in input order — and the
rebuilt collections never depend on the collections left by a previous
invocation. (An empty-path invocation is rejected with an input error and
leaves old results in place.) -/
theorem C7_success_order_and_reset (load : String → Except String (List ℝ × ℕ))
    (f : String → List (Option ℝ) × ℕ) (s : AppState)
    (hne : s.audio_paths ≠ [])
    (hall : ∀ p ∈ s.audio_paths, processOne load p = .ok (f p)) :
    (process_audios load s).2 = .ok ∧
    (process_audios load s).1.processed_audios = s.audio_paths.map (fun p => (f p).1) ∧
    (process_audios load s).1.sampling_rates = s.audio_paths.map (fun p => (f p).2) ∧
    (∀ oldBufs oldRates,
      (process_audios load { s with processed_audios := oldBufs,
                                    sampling_rates := oldRates }).1.processed_audios
        = (process_audios load s).1.processed_audios ∧
      (process_audios load { s with processed_audios := oldBufs,
                                    sampling_rates := oldRates }).1.sampling_rates
        = (process_audios load s).1.sampling_rates) := by
  have hlist := processList_all_ok load f s.audio_paths hall
  refine ⟨?_, ?_, ?_, ?_⟩
  · unfold process_audios
    simp [hne, hlist]
  · rw [(process_audios_results load s hne).1, hlist]
    simp [Function.comp]
  · rw [(process_audios_results load s hne).2, hlist]
    simp [Function.comp]
  · intro oldBufs oldRates
    have hA := process_audios_results load s hne
    have hB := process_audios_results load
      { s with processed_audios := oldBufs, sampling_rates := oldRates } hne
    exact ⟨by rw [hA.1, hB.1], by rw [hA.2, hB.2]⟩

/-- Fixtures for the concrete batch scenarios: a loader that decodes `a.wav`
to a two-sample buffer at 4 Hz and raises on everything else, a filesystem on
which every path is a file and every write succeeds, and the spec §8 batch
`[a.wav, b.corrupt]`. -/
noncomputable def loadDemo : String → Except String (List ℝ × ℕ) :=
  fun p => if p = "a.wav" then .ok ([1, 0], 4) else .error "decode failed"

def alwaysFile : String → Bool := fun _ => true

def alwaysWrite : String → List (Option ℝ) → ℕ → Bool := fun _ _ _ => true

def stateAB : AppState := ⟨["a.wav", "b.corrupt"], [], [], none, false⟩

def stateA : AppState := ⟨["a.wav"], [], [], none, false⟩

theorem processOne_demo_a : processOne loadDemo "a.wav" = .ok (pipelineResult [1, 0] 4) :=
  processOne_ok_of loadDemo "a.wav" [1, 0] 4 rfl rfl

theorem processOne_demo_bad (p : String) (h : ¬ p = "a.wav") :
    processOne loadDemo p = .error "decode failed" := by
  unfold processOne loadDemo
  rw [if_neg h]

theorem processList_demo_AB :
    processList loadDemo ["a.wav", "b.corrupt"]
      = ([pipelineResult [1, 0] 4], some "decode failed") := by
  have h := processList_first_fail loadDemo (fun _ => pipelineResult [1, 0] 4)
    "b.corrupt" [] "decode failed" (processOne_demo_bad _ (by decide)) ["a.wav"]
    (by intro q hq; rw [List.mem_singleton.mp hq]; exact processOne_demo_a)
  simpa using h

theorem process_demo_AB :
    process_audios loadDemo stateAB
      = (⟨["a.wav", "b.corrupt"], [(pipelineResult [1, 0] 4).1],
          [(pipelineResult [1, 0] 4).2], none, false⟩, .procError "decode failed") := by
  unfold process_audios stateAB
  simp [processList_demo_AB]

theorem save_first_of_two (p2 : String) (buf : List (Option ℝ)) (rate : ℕ)
    (btn : Bool) :
    save_audios alwaysWrite ⟨["a.wav", p2], [buf], [rate], some "out", btn⟩
      = (.saveError, [("out/a_SNHL_sim.wav", buf, rate)]) := by
  have hout : outputName "out" "a.wav" = "out/a_SNHL_sim.wav" := rfl
  unfold save_audios
  simp [saveLoopAux, alwaysWrite, hout]

/-- C5 counterexample: in the spec §8 scenario (`[a.wav, b.corrupt]` with
`b.corrupt` failing to decode) the batch does return a processing error, but
the result accumulated for `a.wav` stays in the session and a subsequent
export writes it to disk — contradicting "results for files 0..i-1 are not
exposed as valid for export". -/
theorem C5_counterexample :
    (process_audios loadDemo stateAB).2 = .procError "decode failed" ∧
    ((save_audios alwaysWrite
        (choose_save_directory (some "out") (process_audios loadDemo stateAB).1)).2).map
      Prod.fst = ["out/a_SNHL_sim.wav"] := by
  rw [process_demo_AB]
  exact ⟨rfl, by rw [show choose_save_directory (some "out")
      (⟨["a.wav", "b.corrupt"], [(pipelineResult [1, 0] 4).1],
        [(pipelineResult [1, 0] 4).2], none, false⟩ : AppState)
      = ⟨["a.wav", "b.corrupt"], [(pipelineResult [1, 0] 4).1],
        [(pipelineResult [1, 0] 4).2], some "out", false⟩ from rfl,
    save_first_of_two "b.corrupt" _ _ false]; rfl⟩

/-- C5 (amended): when processing fails at file `i`, the batch aborts there
and the outcome is a processing error carrying the underlying cause; the
results accumulated for files `0..i-1` remain in the session's collections,
and export does not treat them as invalid — it does not reject them (and, as
the counterexample shows, will write them to disk). -/
theorem C5_abort_reports_cause_keeps_results
    (load : String → Except String (List ℝ × ℕ)) (f : String → List (Option ℝ) × ℕ)
    (s : AppState) (pre : List String) (pbad : String) (rest : List String) (e : String)
    (hpaths : s.audio_paths = pre ++ pbad :: rest)
    (hpre : ∀ p ∈ pre, processOne load p = .ok (f p))
    (hbad : processOne load pbad = .error e) :
    (process_audios load s).2 = .procError e ∧
    (process_audios load s).1.processed_audios = pre.map (fun p => (f p).1) ∧
    (process_audios load s).1.sampling_rates = pre.map (fun p => (f p).2) ∧
    (pre ≠ [] → ∀ (w : String → List (Option ℝ) → ℕ → Bool) (d : String),
      (save_audios w (choose_save_directory (some d) (process_audios load s).1)).1
        ≠ SaveOutcome.noAudio) := by
  have hne : s.audio_paths ≠ [] := by rw [hpaths]; simp
  have hlist : processList load s.audio_paths = (pre.map f, some e) := by
    rw [hpaths]; exact processList_first_fail load f pbad rest e hbad pre hpre
  have hres := process_audios_results load s hne
  refine ⟨?_, ?_, ?_, ?_⟩
  · unfold process_audios
    simp [hne, hlist]
  · rw [hres.1, hlist]; simp [Function.comp]
  · rw [hres.2, hlist]; simp [Function.comp]
  · intro hpre_ne w d
    have hb : ((choose_save_directory (some d)
        (process_audios load s).1).processed_audios).isEmpty = false := by
      show ((process_audios load s).1.processed_audios).isEmpty = false
      rw [hres.1, hlist]
      rcases pre with _ | ⟨q, qs⟩
      · exact absurd rfl hpre_ne
      · simp
    have hr : ((choose_save_directory (some d)
        (process_audios load s).1).sampling_rates).isEmpty = false := by
      show ((process_audios load s).1.sampling_rates).isEmpty = false
      rw [hres.2, hlist]
      rcases pre with _ | ⟨q, qs⟩
      · exact absurd rfl hpre_ne
      · simp
    unfold save_audios
    simp only [hb, hr, Bool.false_eq_true, or_self, if_false]
    split
    · simp_all
    · split <;> simp

/-- Witness for C5 at the spec §8 scenario. -/
theorem C5_witness :
    stateAB.audio_paths = ["a.wav"] ++ "b.corrupt" :: [] ∧
    (∀ p ∈ ["a.wav"], processOne loadDemo p = .ok (pipelineResult [1, 0] 4)) ∧
    processOne loadDemo "b.corrupt" = .error "decode failed" ∧
    ((process_audios loadDemo stateAB).2 = .procError "decode failed" ∧
     (process_audios loadDemo stateAB).1.processed_audios
        = ["a.wav"].map (fun _ => (pipelineResult [1, 0] 4).1) ∧
     (process_audios loadDemo stateAB).1.sampling_rates
        = ["a.wav"].map (fun _ => (pipelineResult [1, 0] 4).2) ∧
     (["a.wav"] ≠ ([] : List String) →
       ∀ (w : String → List (Option ℝ) → ℕ → Bool) (d : String),
       (save_audios w (choose_save_directory (some d)
          (process_audios loadDemo stateAB).1)).1 ≠ SaveOutcome.noAudio)) := by
  have hpre : ∀ p ∈ ["a.wav"], processOne loadDemo p = .ok (pipelineResult [1, 0] 4) := by
    intro q hq; rw [List.mem_singleton.mp hq]; exact processOne_demo_a
  have hbad : processOne loadDemo "b.corrupt" = .error "decode failed" :=
    processOne_demo_bad _ (by decide)
  exact ⟨rfl, hpre, hbad,
    C5_abort_reports_cause_keeps_results loadDemo (fun _ => pipelineResult [1, 0] 4)
      stateAB ["a.wav"] "b.corrupt" [] "decode failed" rfl hpre hbad⟩

/-- Witness for C7 at the single-file success scenario. -/
theorem C7_witness :
    stateA.audio_paths ≠ [] ∧
    (∀ p ∈ stateA.audio_paths, processOne loadDemo p = .ok (pipelineResult [1, 0] 4)) ∧
    ((process_audios loadDemo stateA).2 = .ok ∧
     (process_audios loadDemo stateA).1.processed_audios
        = stateA.audio_paths.map (fun _ => (pipelineResult [1, 0] 4).1) ∧
     (process_audios loadDemo stateA).1.sampling_rates
        = stateA.audio_paths.map (fun _ => (pipelineResult [1, 0] 4).2) ∧
     (∀ oldBufs oldRates,
       (process_audios loadDemo { stateA with processed_audios := oldBufs,
                                              sampling_rates := oldRates }).1.processed_audios
         = (process_audios loadDemo stateA).1.processed_audios ∧
       (process_audios loadDemo { stateA with processed_audios := oldBufs,
                                              sampling_rates := oldRates }).1.sampling_rates
         = (process_audios loadDemo stateA).1.sampling_rates)) := by
  have hne : stateA.audio_paths ≠ [] := by simp [stateA]
  have hall : ∀ p ∈ stateA.audio_paths,
      processOne loadDemo p = .ok (pipelineResult [1, 0] 4) := by
    intro q hq
    have : q = "a.wav" := by simpa [stateA] using hq
    rw [this]; exact processOne_demo_a
  exact ⟨hne, hall,
    C7_success_order_and_reset loadDemo (fun _ => pipelineResult [1, 0] 4) stateA hne hall⟩

/-! ### Export lemmas and claims C8, C9, C6 -/

/-- The records the export loop is expected to write for `paths`, starting at
index `i`: output path derived from the source name, the `i`-th buffer, the
`i`-th sampling rate, in input order. -/
def writtenRecords (dir : String) (bufs : List (List (Option ℝ))) (rates : List ℕ) :
    List String → ℕ → List WrittenFile
  | [], _ => []
  | p :: rest, i =>
    (outputName dir p, bufs.getD i [], rates.getD i 0) ::
      writtenRecords dir bufs rates rest (i + 1)

theorem writtenRecords_eq_map (dir : String) (bufs : List (List (Option ℝ)))
    (rates : List ℕ) :
    ∀ (paths : List String) (i : ℕ),
      writtenRecords dir bufs rates paths i
        = (List.range paths.length).map
            (fun k => (outputName dir (paths.getD k ""), bufs.getD (i + k) [],
              rates.getD (i + k) 0))
  | [], i => by simp [writtenRecords]
  | p :: rest, i => by
    rw [writtenRecords, writtenRecords_eq_map dir bufs rates rest (i + 1),
      List.length_cons, List.range_succ_eq_map, List.map_cons, List.map_map]
    congr 1
    refine List.map_congr_left fun k _ => ?_
    simp only [Function.comp_apply, List.getD_cons_succ]
    rw [show i + (k + 1) = i + 1 + k by omega]

theorem saveLoopAux_all_ok (write : String → List (Option ℝ) → ℕ → Bool) (dir : String)
    (bufs : List (List (Option ℝ))) (rates : List ℕ) :
    ∀ (paths : List String) (i : ℕ) (acc : List WrittenFile),
      (∀ k, k < paths.length →
        i + k < bufs.length ∧ i + k < rates.length ∧
        write (outputName dir (paths.getD k "")) (bufs.getD (i + k) [])
          (rates.getD (i + k) 0) = true) →
      saveLoopAux write dir bufs rates paths i acc
        = (acc ++ writtenRecords dir bufs rates paths i, true)
  | [], i, acc, _ => by simp [saveLoopAux, writtenRecords]
  | p :: rest, i, acc, h => by
    have h0 := h 0 (Nat.succ_pos _)
    simp only [List.getD_cons_zero, Nat.add_zero] at h0
    have ih := saveLoopAux_all_ok write dir bufs rates rest (i + 1)
      (acc ++ [(outputName dir p, bufs.getD i [], rates.getD i 0)])
      (fun k hk => by
        have h2 := h (k + 1) (Nat.succ_lt_succ hk)
        simpa only [List.getD_cons_succ, show i + (k + 1) = i + 1 + k from by omega]
          using h2)
    simp only [saveLoopAux]
    rw [if_pos (And.intro h0.1 h0.2.1), if_pos h0.2.2, ih]
    simp [writtenRecords]

theorem saveLoopAux_first_fail (write : String → List (Option ℝ) → ℕ → Bool)
    (dir : String) (bufs : List (List (Option ℝ))) (rates : List ℕ)
    (pbad : String) (rest : List String) :
    ∀ (pre : List String) (i : ℕ) (acc : List WrittenFile),
      (∀ k, k < pre.length →
        i + k < bufs.length ∧ i + k < rates.length ∧
        write (outputName dir (pre.getD k "")) (bufs.getD (i + k) [])
          (rates.getD (i + k) 0) = true) →
      (¬ (i + pre.length < bufs.length ∧ i + pre.length < rates.length) ∨
        write (outputName dir pbad) (bufs.getD (i + pre.length) [])
          (rates.getD (i + pre.length) 0) = false) →
      saveLoopAux write dir bufs rates (pre ++ pbad :: rest) i acc
        = (acc ++ writtenRecords dir bufs rates pre i, false)
  | [], i, acc, _, hbad => by
    simp only [Nat.add_zero, List.length_nil] at hbad
    simp only [List.nil_append, writtenRecords, List.append_nil, saveLoopAux]
    rcases hbad with hb | hb
    · rw [if_neg hb]
    · by_cases hcond : i < bufs.length ∧ i < rates.length
      · rw [if_pos hcond,
          if_neg (by simp only [List.getD_eq_getElem?_getD] at hb ⊢; simp [hb])]
      · rw [if_neg hcond]
  | p :: pre, i, acc, h, hbad => by
    have h0 := h 0 (Nat.succ_pos _)
    simp only [List.getD_cons_zero, Nat.add_zero] at h0
    have ih := saveLoopAux_first_fail write dir bufs rates pbad rest pre (i + 1)
      (acc ++ [(outputName dir p, bufs.getD i [], rates.getD i 0)])
      (fun k hk => by
        have h2 := h (k + 1) (Nat.succ_lt_succ hk)
        simpa only [List.getD_cons_succ, show i + (k + 1) = i + 1 + k from by omega]
          using h2)
      (by
        have : i + (p :: pre).length = i + 1 + pre.length := by
          simp [List.length_cons]; omega
        rwa [this] at hbad)
    simp only [List.cons_append, saveLoopAux, List.append_eq]
    rw [if_pos (And.intro h0.1 h0.2.1), if_pos h0.2.2, ih]
    simp [writtenRecords]

theorem save_audios_all_ok (write : String → List (Option ℝ) → ℕ → Bool) (dir : String)
    (s : AppState)
    (hb : s.processed_audios ≠ []) (hr : s.sampling_rates ≠ [])
    (hdir : s.save_directory = some dir)
    (hall : ∀ k, k < s.audio_paths.length →
      k < s.processed_audios.length ∧ k < s.sampling_rates.length ∧
      write (outputName dir (s.audio_paths.getD k "")) (s.processed_audios.getD k [])
        (s.sampling_rates.getD k 0) = true) :
    save_audios write s
      = (.saved ((writtenRecords dir s.processed_audios s.sampling_rates
            s.audio_paths 0).map Prod.fst),
         writtenRecords dir s.processed_audios s.sampling_rates s.audio_paths 0) := by
  have hloop := saveLoopAux_all_ok write dir s.processed_audios s.sampling_rates
    s.audio_paths 0 [] (fun k hk => by simpa using hall k hk)
  unfold save_audios
  rw [if_neg (by simp [List.isEmpty_iff, hb, hr]), hdir]
  dsimp only
  rw [hloop]
  simp

theorem save_audios_first_fail (write : String → List (Option ℝ) → ℕ → Bool)
    (dir : String) (s : AppState) (pre : List String) (pbad : String) (rest : List String)
    (hb : s.processed_audios ≠ []) (hr : s.sampling_rates ≠ [])
    (hdir : s.save_directory = some dir)
    (hpaths : s.audio_paths = pre ++ pbad :: rest)
    (hpre : ∀ k, k < pre.length →
      k < s.processed_audios.length ∧ k < s.sampling_rates.length ∧
      write (outputName dir (pre.getD k "")) (s.processed_audios.getD k [])
        (s.sampling_rates.getD k 0) = true)
    (hbad : ¬ (pre.length < s.processed_audios.length ∧
        pre.length < s.sampling_rates.length) ∨
      write (outputName dir pbad) (s.processed_audios.getD pre.length [])
        (s.sampling_rates.getD pre.length 0) = false) :
    save_audios write s
      = (.saveError, writtenRecords dir s.processed_audios s.sampling_rates pre 0) := by
  have hloop := saveLoopAux_first_fail write dir s.processed_audios s.sampling_rates
    pbad rest pre 0 [] (fun k hk => by simpa using hpre k hk) (by simpa using hbad)
  unfold save_audios
  rw [if_neg (by simp [List.isEmpty_iff, hb, hr]), hdir]
  dsimp only
  rw [hpaths, hloop]
  simp

/-- C8: batch export processes the aligned (path, buffer, rate) triples in
input order and aborts the remaining exports at the first failure (an
out-of-range index into the buffer or rate collections, or a write that
raises); exactly the files written before the failure remain on disk — no
rollback. -/
theorem C8_export_aborts_on_first_failure (write : String → List (Option ℝ) → ℕ → Bool)
    (dir : String) (s : AppState) (pre : List String) (pbad : String) (rest : List String)
    (hb : s.processed_audios ≠ []) (hr : s.sampling_rates ≠ [])
    (hdir : s.save_directory = some dir)
    (hpaths : s.audio_paths = pre ++ pbad :: rest)
    (hpre : ∀ k, k < pre.length →
      k < s.processed_audios.length ∧ k < s.sampling_rates.length ∧
      write (outputName dir (pre.getD k "")) (s.processed_audios.getD k [])
        (s.sampling_rates.getD k 0) = true)
    (hbad : ¬ (pre.length < s.processed_audios.length ∧
        pre.length < s.sampling_rates.length) ∨
      write (outputName dir pbad) (s.processed_audios.getD pre.length [])
        (s.sampling_rates.getD pre.length 0) = false) :
    save_audios write s
      = (.saveError,
         (List.range pre.length).map fun k =>
           (outputName dir (pre.getD k ""), s.processed_audios.getD k [],
            s.sampling_rates.getD k 0)) := by
  rw [save_audios_first_fail write dir s pre pbad rest hb hr hdir hpaths hpre hbad,
    writtenRecords_eq_map]
  simp only [Nat.zero_add]

/-- Fixtures for the export-failure scenario: three aligned triples, a writer
that raises exactly on the output name derived from `b.wav`. -/
def failBWrite : String → List (Option ℝ) → ℕ → Bool :=
  fun p _ _ => p != "o/b_SNHL_sim.wav"

def stateABC : AppState :=
  ⟨["a.wav", "b.wav", "c.wav"], [[], [], []], [8000, 8000, 8000], some "o", true⟩

/-- Witness for C8: with aligned triples for `a.wav`, `b.wav`, `c.wav` and a
writer failing on `b`, export writes exactly `a`'s file, aborts, and never
writes `c`'s. -/
theorem C8_witness :
    stateABC.processed_audios ≠ [] ∧ stateABC.sampling_rates ≠ [] ∧
    stateABC.save_directory = some "o" ∧
    stateABC.audio_paths = ["a.wav"] ++ "b.wav" :: ["c.wav"] ∧
    (∀ k, k < (["a.wav"] : List String).length →
      k < stateABC.processed_audios.length ∧ k < stateABC.sampling_rates.length ∧
      failBWrite (outputName "o" (["a.wav"].getD k "")) (stateABC.processed_audios.getD k [])
        (stateABC.sampling_rates.getD k 0) = true) ∧
    (failBWrite (outputName "o" "b.wav")
      (stateABC.processed_audios.getD (["a.wav"] : List String).length [])
      (stateABC.sampling_rates.getD (["a.wav"] : List String).length 0) = false) ∧
    save_audios failBWrite stateABC = (.saveError, [("o/a_SNHL_sim.wav", [], 8000)]) := by
  have hb : stateABC.processed_audios ≠ [] := by simp [stateABC]
  have hr : stateABC.sampling_rates ≠ [] := by simp [stateABC]
  have hpre : ∀ k, k < (["a.wav"] : List String).length →
      k < stateABC.processed_audios.length ∧ k < stateABC.sampling_rates.length ∧
      failBWrite (outputName "o" (["a.wav"].getD k "")) (stateABC.processed_audios.getD k [])
        (stateABC.sampling_rates.getD k 0) = true := by
    intro k hk
    rw [List.length_singleton] at hk
    have hk0 : k = 0 := Nat.lt_one_iff.mp hk
    subst hk0
    exact ⟨by simp [stateABC], by simp [stateABC], by decide⟩
  have hbad : failBWrite (outputName "o" "b.wav")
      (stateABC.processed_audios.getD (["a.wav"] : List String).length [])
      (stateABC.sampling_rates.getD (["a.wav"] : List String).length 0) = false := by
    decide
  refine ⟨hb, hr, rfl, rfl, hpre, hbad, ?_⟩
  have h := C8_export_aborts_on_first_failure failBWrite "o" stateABC
    ["a.wav"] "b.wav" ["c.wav"] hb hr rfl rfl hpre (Or.inr hbad)
  rw [h]
  rfl

/-- C9: when every triple is in range and every write succeeds, export writes
one file per source path, named `{basename}_SNHL_sim{originalExtension}`,
joined onto the chosen directory, carrying the processed buffer and the
original (unchanged) sampling rate. -/
theorem C9_export_derives_names_and_keeps_rates
    (write : String → List (Option ℝ) → ℕ → Bool) (dir : String) (s : AppState)
    (hb : s.processed_audios ≠ []) (hr : s.sampling_rates ≠ [])
    (hdir : s.save_directory = some dir)
    (hall : ∀ k, k < s.audio_paths.length →
      k < s.processed_audios.length ∧ k < s.sampling_rates.length ∧
      write (outputName dir (s.audio_paths.getD k "")) (s.processed_audios.getD k [])
        (s.sampling_rates.getD k 0) = true) :
    save_audios write s
      = (.saved ((List.range s.audio_paths.length).map fun k =>
          joinPath dir ((splitext (basename (s.audio_paths.getD k ""))).1
            ++ "_SNHL_sim" ++ (splitext (basename (s.audio_paths.getD k ""))).2)),
         (List.range s.audio_paths.length).map fun k =>
           (joinPath dir ((splitext (basename (s.audio_paths.getD k ""))).1
              ++ "_SNHL_sim" ++ (splitext (basename (s.audio_paths.getD k ""))).2),
            s.processed_audios.getD k [], s.sampling_rates.getD k 0)) := by
  rw [save_audios_all_ok write dir s hb hr hdir hall, writtenRecords_eq_map]
  simp only [Nat.zero_add]
  congr 1
  rw [List.map_map]
  exact congrArg SaveOutcome.saved (List.map_congr_left fun k _ => rfl)

/-- Fixture for the export-success scenario: one processed single-sample
buffer at 44100 Hz for source `in/a.wav`, output directory `out`. -/
def stateXY : AppState := ⟨["in/a.wav"], [[some 1]], [44100], some "out", true⟩

/-- Witness for C9: `in/a.wav` is exported as `out/a_SNHL_sim.wav` with its
buffer and its original 44100 Hz rate. -/
theorem C9_witness :
    stateXY.processed_audios ≠ [] ∧ stateXY.sampling_rates ≠ [] ∧
    stateXY.save_directory = some "out" ∧
    (∀ k, k < stateXY.audio_paths.length →
      k < stateXY.processed_audios.length ∧ k < stateXY.sampling_rates.length ∧
      alwaysWrite (outputName "out" (stateXY.audio_paths.getD k ""))
        (stateXY.processed_audios.getD k []) (stateXY.sampling_rates.getD k 0) = true) ∧
    save_audios alwaysWrite stateXY
      = (.saved ["out/a_SNHL_sim.wav"],
         [("out/a_SNHL_sim.wav", [Option.some (1 : ℝ)], 44100)]) := by
  have hb : stateXY.processed_audios ≠ [] := by simp [stateXY]
  have hr : stateXY.sampling_rates ≠ [] := by simp [stateXY]
  have hall : ∀ k, k < stateXY.audio_paths.length →
      k < stateXY.processed_audios.length ∧ k < stateXY.sampling_rates.length ∧
      alwaysWrite (outputName "out" (stateXY.audio_paths.getD k ""))
        (stateXY.processed_audios.getD k []) (stateXY.sampling_rates.getD k 0) = true := by
    intro k hk
    have hk1 : k < 1 := by simpa [stateXY] using hk
    have hk0 : k = 0 := Nat.lt_one_iff.mp hk1
    subst hk0
    exact ⟨by simp [stateXY], by simp [stateXY], rfl⟩
  refine ⟨hb, hr, rfl, hall, ?_⟩
  have h := C9_export_derives_names_and_keeps_rates alwaysWrite "out" stateXY hb hr rfl hall
  rw [h]
  rfl

/-! ### Claim C6: the parallel collections drift apart -/

/-- The C6 scenario, step by step: drop `a.wav` on the fresh session, process
it successfully, pick the output directory, then drop `b.wav`. -/
noncomputable def demoS1 : AppState := handle_file_drop alwaysFile "a.wav" initialState

noncomputable def demoS2 : AppState := (process_audios loadDemo demoS1).1

noncomputable def demoS3 : AppState :=
  handle_file_drop alwaysFile "b.wav" (choose_save_directory (some "out") demoS2)

/-- C6, evaluated on the scenario: after the second drop the session holds two
paths but only one buffer — the three parallel collections are no longer
index-aligned — and export then runs past the end of the buffer collection
(the out-of-range access aborts it as a save error) after already writing the
first file. -/
theorem C6_collections_misaligned_after_drop :
    demoS3.audio_paths.length = 2 ∧
    demoS3.processed_audios.length = 1 ∧
    (save_audios alwaysWrite demoS3).1 = .saveError ∧
    ((save_audios alwaysWrite demoS3).2).map Prod.fst = ["out/a_SNHL_sim.wav"] := by
  have h1 : demoS1 = ⟨["a.wav"], [], [], none, false⟩ := rfl
  have hlistA : processList loadDemo ["a.wav"] = ([pipelineResult [1, 0] 4], none) := by
    simp [processList, processOne_demo_a]
  have h2 : demoS2 = ⟨["a.wav"], [(pipelineResult [1, 0] 4).1],
      [(pipelineResult [1, 0] 4).2], none, true⟩ := by
    unfold demoS2 process_audios
    rw [h1]
    simp [hlistA]
  have hp : parse_file_paths "b.wav" = ["b.wav"] := rfl
  have h3 : demoS3 = ⟨["a.wav", "b.wav"], [(pipelineResult [1, 0] 4).1],
      [(pipelineResult [1, 0] 4).2], some "out", true⟩ := by
    unfold demoS3 choose_save_directory handle_file_drop
    rw [h2]
    simp [hp, alwaysFile, (by decide : ¬ ("b.wav" : String) = "a.wav")]
  refine ⟨by rw [h3]; rfl, by rw [h3]; rfl, ?_, ?_⟩
  · rw [h3, save_first_of_two "b.wav" _ _ true]
  · rw [h3, save_first_of_two "b.wav" _ _ true]
    rfl

end SNHLSim
